import Mathlib

/-!
Shallow embedding of the load-testing engine of `lemonlinger/llm-test`
(`engine/engine.go`, with the model interface of `model/model.go` and the
configuration fields of `config`).

Conventions of the embedding:
* `time.Duration` values (latencies, durations) are nanosecond counts,
  modelled as `Nat` (they are non-negative in every execution the engine
  produces: they come from `time.Since`).
* Go `float64` quantities (`AvgInputTokens`, `RequestsPerSec`, ...) are
  modelled as exact rationals `ℚ`; the Go computations are single divisions
  of machine integers, so the rational value is the ideal of the float one.
* A worker iteration of `runTestWithConcurrency` (engine.go:173-201) is
  modelled by its observable outcome: the measured latency and the
  `Except`-shaped result of `mdl.GenerateResponse`.  A full drain of the
  dispatch channel is a list of such outcomes, one per pushed token, in
  some interleaving order chosen by the scheduler.
* `sort.Slice` with comparator `<` (engine.go:267-269) is a comparison sort
  of a `[]time.Duration`; it is modelled by `List.insertionSort (· ≤ ·)`,
  which produces the same list (any two sorted permutations of the same
  list are equal).
* The truncating conversion `int(float64(n-1) * float64(p) / 100.0)`
  (engine.go:272) is modelled as the Nat floor division `(n-1) * p / 100`:
  for `0 ≤ p ≤ 100` and list lengths representable in practice the float
  product is exact and the quotient is never within one ulp of an integer
  it is not equal to, so truncation computes the exact floor.
-/

namespace LLMTest

/-- `model.LLMResponse` (model/model.go): content text and token counts.
The streaming-only fields (`TimeToFirstToken`, `TokensPerSecond`) are not
read by the engine and are omitted. -/
structure LLMResponse where
  Content : String
  InputTokens : Nat
  OutputTokens : Nat
  deriving Repr, DecidableEq

/-- The observable outcome of one worker iteration (engine.go:179-181):
the wall-clock latency measured around the call, and the result of
`mdl.GenerateResponse` — a response or an error string. -/
structure Outcome where
  latency : Nat
  result : Except String LLMResponse
  deriving Repr

/-- `engine.TestResult` (engine.go:18-37). -/
structure TestResult where
  ModelName : String
  ConcurrencyLevel : Nat
  TotalRequests : Nat
  SuccessRequests : Nat
  FailedRequests : Nat
  TotalDuration : Nat
  AvgLatency : Nat
  InputTokens : Nat
  OutputTokens : Nat
  TotalTokens : Nat
  AvgInputTokens : ℚ
  AvgOutputTokens : ℚ
  AvgTotalTokens : ℚ
  RequestsPerSec : ℚ
  TokensPerSec : ℚ
  Errors : List String
  LatencyPercentiles : Option (List (Nat × Nat))
  AllLatencies : List Nat
  deriving Repr, DecidableEq

/-- The fresh result object `Run` creates for each cell (engine.go:97-101):
only `ModelName`, `ConcurrencyLevel` and an empty `Errors` slice are set,
every other field is the Go zero value. -/
def initTestResult (modelName : String) (concurrency : Nat) : TestResult where
  ModelName := modelName
  ConcurrencyLevel := concurrency
  TotalRequests := 0
  SuccessRequests := 0
  FailedRequests := 0
  TotalDuration := 0
  AvgLatency := 0
  InputTokens := 0
  OutputTokens := 0
  TotalTokens := 0
  AvgInputTokens := 0
  AvgOutputTokens := 0
  AvgTotalTokens := 0
  RequestsPerSec := 0
  TokensPerSec := 0
  Errors := []
  LatencyPercentiles := none
  AllLatencies := []

/-- The mutable per-cell state of `runTestWithConcurrency`
(engine.go:125-129, 152, and the `result.Errors` slice, which is the one
`result` field the workers write, engine.go:191). -/
structure CellState where
  successCount : Nat
  failedCount : Nat
  totalLatency : Nat
  inputTokens : Nat
  outputTokens : Nat
  latencies : List Nat
  errors : List String
  deriving Repr, DecidableEq

/-- All counters start at zero, the slices empty (engine.go:125-129,152). -/
def initCellState : CellState where
  successCount := 0
  failedCount := 0
  totalLatency := 0
  inputTokens := 0
  outputTokens := 0
  latencies := []
  errors := []

/-- One worker iteration of the `for range jobs` loop (engine.go:173-201):
the latency is appended to the sample slice unconditionally
(engine.go:184-186, before the error check); then either `failedCount` is
bumped and the error string appended (engine.go:188-191), or
`successCount`, `totalLatency` and the token counters are bumped
(engine.go:192-197). -/
def workerIter (s : CellState) (o : Outcome) : CellState :=
  let s := { s with latencies := s.latencies ++ [o.latency] }
  match o.result with
  | .error e =>
      { s with failedCount := s.failedCount + 1, errors := s.errors ++ [e] }
  | .ok resp =>
      { s with successCount := s.successCount + 1,
               totalLatency := s.totalLatency + o.latency,
               inputTokens := s.inputTokens + resp.InputTokens,
               outputTokens := s.outputTokens + resp.OutputTokens }

/-- Processing of the whole job stream: every token pushed into `jobs` is
received by exactly one worker iteration before `wg.Wait()` returns
(engine.go:209-221); the iterations are interleaved in some order, given
here as the order of the outcome list. -/
def drainJobs (outcomes : List Outcome) : CellState :=
  outcomes.foldl workerIter initCellState

/-- `totalDuration.Seconds()`: nanoseconds to seconds. -/
def durationSeconds (d : Nat) : ℚ := (d : ℚ) / 1000000000

/-- `calculatePercentile` (engine.go:263-274): sort a copy of the samples
ascending, return the element at index `(n-1) * percentile / 100`. -/
def calculatePercentile (latencies : List Nat) (percentile : Nat) : Nat :=
  let sortedLatencies := List.insertionSort (· ≤ ·) latencies
  let index := (sortedLatencies.length - 1) * percentile / 100
  sortedLatencies.getD index 0

/-- State-passing embedding of `calculatePercentile` that also returns the
final contents of the caller's slice: the function allocates a fresh slice
and copies the input into it (engine.go:265-266), sorts only that copy
(engine.go:267-269) and indexes into it (engine.go:272-273); the argument
slice `latencies` is only ever read, so the call leaves it as it was. -/
def calculatePercentileTracked (latencies : List Nat) (percentile : Nat) :
    Nat × List Nat :=
  let sortedLatencies := latencies
  let sortedLatencies := List.insertionSort (· ≤ ·) sortedLatencies
  let index := (sortedLatencies.length - 1) * percentile / 100
  (sortedLatencies.getD index 0, latencies)

/-- The aggregation phase of `runTestWithConcurrency` (engine.go:223-259),
written as the net record update it performs on the cell's result object
`r0`.  The `+=` updates (engine.go:227-230, 236-238) add onto `r0`'s
fields; the `if successCount > 0` block (engine.go:232-246) leaves its
fields untouched otherwise; the average and rate fields divide the
already-updated result fields (engine.go:240-245); `AllLatencies` is set
unconditionally (engine.go:249) and `LatencyPercentiles` is built only
when both the sample list and the configured percentile list are non-empty
(engine.go:252-257), one entry per configured percentile. -/
def aggregateResult (r0 : TestResult) (requestCount : Nat) (s : CellState)
    (totalDuration : Nat) (cfgPercentiles : List Nat) : TestResult :=
  let succ := r0.SuccessRequests + s.successCount
  let inTok := r0.InputTokens + s.inputTokens
  let outTok := r0.OutputTokens + s.outputTokens
  let totTok := r0.TotalTokens + s.inputTokens + s.outputTokens
  { r0 with
    TotalRequests := r0.TotalRequests + requestCount
    SuccessRequests := succ
    FailedRequests := r0.FailedRequests + s.failedCount
    TotalDuration := r0.TotalDuration + totalDuration
    Errors := r0.Errors ++ s.errors
    AvgLatency :=
      if 0 < s.successCount then s.totalLatency / s.successCount
      else r0.AvgLatency
    InputTokens := if 0 < s.successCount then inTok else r0.InputTokens
    OutputTokens := if 0 < s.successCount then outTok else r0.OutputTokens
    TotalTokens := if 0 < s.successCount then totTok else r0.TotalTokens
    AvgInputTokens :=
      if 0 < s.successCount then (inTok : ℚ) / (succ : ℚ)
      else r0.AvgInputTokens
    AvgOutputTokens :=
      if 0 < s.successCount then (outTok : ℚ) / (succ : ℚ)
      else r0.AvgOutputTokens
    AvgTotalTokens :=
      if 0 < s.successCount then (totTok : ℚ) / (succ : ℚ)
      else r0.AvgTotalTokens
    RequestsPerSec :=
      if 0 < s.successCount then (succ : ℚ) / durationSeconds totalDuration
      else r0.RequestsPerSec
    TokensPerSec :=
      if 0 < s.successCount then (totTok : ℚ) / durationSeconds totalDuration
      else r0.TokensPerSec
    AllLatencies := s.latencies
    LatencyPercentiles :=
      if 0 < s.latencies.length ∧ 0 < cfgPercentiles.length then
        some (cfgPercentiles.map fun p => (p, calculatePercentile s.latencies p))
      else r0.LatencyPercentiles }

/-- `runTestWithConcurrency` (engine.go:118-260) on the cell's result
object `r0`: the dispatch loop pushes `requestCount` tokens and each is
consumed by exactly one worker iteration (`outcomes` lists them in drain
order, so `requestCount = outcomes.length`), after which the aggregation
phase runs; `totalDuration` is the measured `time.Since(startTime)`. -/
def runTestWithConcurrency (r0 : TestResult) (outcomes : List Outcome)
    (totalDuration : Nat) (cfgPercentiles : List Nat) : TestResult :=
  aggregateResult r0 outcomes.length (drainJobs outcomes) totalDuration
    cfgPercentiles

/-- An outcome whose `GenerateResponse` call returned a non-nil error
(the `err != nil` branch, engine.go:188). -/
def Outcome.isFailure (o : Outcome) : Bool :=
  match o.result with
  | .error _ => true
  | .ok _ => false

/- ### Helper lemmas about the drain of the job stream -/

lemma foldl_workerIter_success_add_failed (outcomes : List Outcome) :
    ∀ s : CellState,
      (outcomes.foldl workerIter s).successCount
        + (outcomes.foldl workerIter s).failedCount
      = s.successCount + s.failedCount + outcomes.length := by
  induction outcomes with
  | nil => intro s; simp
  | cons o rest ih =>
      intro s
      rw [List.foldl_cons, ih]
      rcases o with ⟨lat, res⟩
      cases res <;> simp [workerIter] <;> omega

lemma foldl_workerIter_latencies (outcomes : List Outcome) :
    ∀ s : CellState,
      (outcomes.foldl workerIter s).latencies
        = s.latencies ++ outcomes.map Outcome.latency := by
  induction outcomes with
  | nil => intro s; simp
  | cons o rest ih =>
      intro s
      rw [List.foldl_cons, ih]
      rcases o with ⟨lat, res⟩
      cases res <;> simp [workerIter]

lemma foldl_workerIter_success_all_fail (outcomes : List Outcome)
    (hfail : ∀ o ∈ outcomes, o.isFailure = true) :
    ∀ s : CellState,
      (outcomes.foldl workerIter s).successCount = s.successCount := by
  induction outcomes with
  | nil => intro s; simp
  | cons o rest ih =>
      intro s
      rw [List.foldl_cons]
      rw [ih fun o ho => hfail o (List.mem_cons_of_mem _ ho)]
      rcases o with ⟨lat, res⟩
      cases res with
      | error e => simp [workerIter]
      | ok resp =>
          have := hfail ⟨lat, .ok resp⟩ (List.mem_cons_self _ _)
          simp [Outcome.isFailure] at this

/-- C1: for every cell, after the dispatch channel is closed and all
workers have drained (`drainJobs` consumed every pushed token exactly
once), `SuccessRequests + FailedRequests = TotalRequests`, and
`TotalRequests` is the number of tokens pushed by the dispatch loop. -/
theorem success_plus_failed_eq_total (modelName : String) (concurrency : Nat)
    (outcomes : List Outcome) (totalDuration : Nat) (cfgPercentiles : List Nat) :
    (runTestWithConcurrency (initTestResult modelName concurrency) outcomes
        totalDuration cfgPercentiles).SuccessRequests
      + (runTestWithConcurrency (initTestResult modelName concurrency) outcomes
        totalDuration cfgPercentiles).FailedRequests
    = (runTestWithConcurrency (initTestResult modelName concurrency) outcomes
        totalDuration cfgPercentiles).TotalRequests
    ∧ (runTestWithConcurrency (initTestResult modelName concurrency) outcomes
        totalDuration cfgPercentiles).TotalRequests = outcomes.length := by
  have h := foldl_workerIter_success_add_failed outcomes initCellState
  simp [runTestWithConcurrency, aggregateResult, initTestResult, drainJobs,
    initCellState] at h ⊢
  omega

/- ### Helper lemmas about the percentile reducer -/

lemma insertionSort_eq_of_sorted (l s : List Nat) (hperm : l.Perm s)
    (hsort : s.Sorted (· ≤ ·)) : List.insertionSort (· ≤ ·) l = s :=
  List.eq_of_perm_of_sorted ((List.perm_insertionSort _ l).trans hperm)
    (List.sorted_insertionSort _ l) hsort

lemma percentile_index_lt (n p : Nat) (hn : 0 < n) (hp : p ≤ 100) :
    (n - 1) * p / 100 < n := by
  have h1 : (n - 1) * p / 100 ≤ (n - 1) * 100 / 100 :=
    Nat.div_le_div_right (Nat.mul_le_mul_left _ hp)
  have h2 : (n - 1) * 100 / 100 = n - 1 := Nat.mul_div_cancel _ (by norm_num)
  omega

lemma calculatePercentile_le (l : List Nat) (p q : Nat)
    (hne : l ≠ []) (hpq : p ≤ q) (hq : q ≤ 100) :
    calculatePercentile l p ≤ calculatePercentile l q := by
  have hn : 0 < l.length := List.length_pos.mpr hne
  have hsorted := List.sorted_insertionSort (· ≤ ·) l
  set s := List.insertionSort (· ≤ ·) l with hs
  have hlen : s.length = l.length := List.length_insertionSort _ l
  have hnp : 0 < s.length := hlen ▸ hn
  have hip : (s.length - 1) * p / 100 < s.length :=
    percentile_index_lt _ _ hnp (le_trans hpq hq)
  have hiq : (s.length - 1) * q / 100 < s.length :=
    percentile_index_lt _ _ hnp hq
  have hle : (s.length - 1) * p / 100 ≤ (s.length - 1) * q / 100 :=
    Nat.div_le_div_right (Nat.mul_le_mul_left _ hpq)
  have hrel := hsorted.rel_get_of_le
    (a := ⟨(s.length - 1) * p / 100, hip⟩)
    (b := ⟨(s.length - 1) * q / 100, hiq⟩) (Fin.mk_le_mk.mpr hle)
  simp only [calculatePercentile, ← hs]
  rw [List.getD_eq_getElem _ _ hip, List.getD_eq_getElem _ _ hiq]
  simpa [List.get_eq_getElem] using hrel

lemma drainJobs_latencies (outcomes : List Outcome) :
    (drainJobs outcomes).latencies = outcomes.map Outcome.latency := by
  simpa [drainJobs, initCellState]
    using foldl_workerIter_latencies outcomes initCellState

/-- C2: `calculatePercentile` implements the nearest-rank method — for a
non-empty sample list `l` and percentile `p ≤ 100` it returns the element
at zero-based index `(n-1)*p/100` of the ascending-sorted copy of `l`
(characterised as any sorted permutation `s` of `l`), the index being in
range; in particular on `[10ms,20ms,30ms,40ms,50ms]` with `p = 50` it
returns `30ms`. -/
theorem calculatePercentile_nearest_rank (l s : List Nat) (p : Nat)
    (hne : l ≠ []) (hp : p ≤ 100) (hperm : l.Perm s)
    (hsort : s.Sorted (· ≤ ·)) :
    (l.length - 1) * p / 100 < l.length ∧
    calculatePercentile l p = s.getD ((l.length - 1) * p / 100) 0 ∧
    calculatePercentile [10, 20, 30, 40, 50] 50 = 30 := by
  have hn : 0 < l.length := List.length_pos.mpr hne
  refine ⟨percentile_index_lt _ _ hn hp, ?_, by decide⟩
  simp only [calculatePercentile, insertionSort_eq_of_sorted l s hperm hsort,
    hperm.length_eq]

/-- Witness for C2 at `l = [10,20,30,40,50]`, `s = [10,20,30,40,50]`,
`p = 50`. -/
theorem calculatePercentile_nearest_rank_witness :
    (([10, 20, 30, 40, 50] : List Nat).length - 1) * 50 / 100
        < ([10, 20, 30, 40, 50] : List Nat).length ∧
    calculatePercentile [10, 20, 30, 40, 50] 50
        = ([10, 20, 30, 40, 50] : List Nat).getD
            ((([10, 20, 30, 40, 50] : List Nat).length - 1) * 50 / 100) 0 ∧
    calculatePercentile [10, 20, 30, 40, 50] 50 = 30 :=
  calculatePercentile_nearest_rank [10, 20, 30, 40, 50] [10, 20, 30, 40, 50]
    50 (by decide) (by decide) (by decide) (by decide)

/-- C7: the percentile reducer is monotone in the requested percentile on
a fixed sample list, hence `P50 ≤ P90 ≤ P95 ≤ P99`; and a cell requesting
`[50,90,95,99]` stores exactly the map `p ↦ calculatePercentile samples p`
over the cell's sample list, so the stored map satisfies the chain. -/
theorem percentile_monotone (l : List Nat) (p q : Nat)
    (hne : l ≠ []) (hpq : p ≤ q) (hq : q ≤ 100) :
    calculatePercentile l p ≤ calculatePercentile l q ∧
    (calculatePercentile l 50 ≤ calculatePercentile l 90 ∧
      calculatePercentile l 90 ≤ calculatePercentile l 95 ∧
      calculatePercentile l 95 ≤ calculatePercentile l 99) ∧
    (∀ (modelName : String) (concurrency totalDuration : Nat)
        (outcomes : List Outcome), outcomes ≠ [] →
      (runTestWithConcurrency (initTestResult modelName concurrency) outcomes
          totalDuration [50, 90, 95, 99]).LatencyPercentiles
        = some ([50, 90, 95, 99].map fun pp =>
            (pp, calculatePercentile (outcomes.map Outcome.latency) pp))) := by
  refine ⟨calculatePercentile_le l p q hne hpq hq,
    ⟨calculatePercentile_le l 50 90 hne (by norm_num) (by norm_num),
      calculatePercentile_le l 90 95 hne (by norm_num) (by norm_num),
      calculatePercentile_le l 95 99 hne (by norm_num) (by norm_num)⟩, ?_⟩
  intro modelName concurrency totalDuration outcomes hne2
  have hlat := drainJobs_latencies outcomes
  have hpos : 0 < (drainJobs outcomes).latencies.length := by
    rw [hlat]
    simpa using List.length_pos.mpr hne2
  simp only [runTestWithConcurrency, aggregateResult]
  rw [if_pos ⟨hpos, by norm_num⟩, hlat]

/-- Witness for C7 at `l = [30, 10, 20]`, `p = 50`, `q = 90`. -/
theorem percentile_monotone_witness :
    calculatePercentile [30, 10, 20] 50 ≤ calculatePercentile [30, 10, 20] 90 :=
  (percentile_monotone [30, 10, 20] 50 90 (by decide) (by decide)
    (by decide)).1

/- ### Helper lemma about lookup into the percentile map -/

lemma lookup_map_key (f : Nat → Nat) (ps : List Nat) (q : Nat) :
    (ps.map fun x => (x, f x)).lookup q
      = if q ∈ ps then some (f q) else none := by
  induction ps with
  | nil => simp
  | cons x rest ih =>
      by_cases hqx : q = x
      · subst hqx; simp [List.lookup]
      · have hbeq : (q == x) = false := beq_eq_false_iff_ne.mpr hqx
        simp [List.lookup, hbeq, ih, hqx]

/-- C10: `calculatePercentile` never mutates its input — the state-passing
embedding returns the caller's slice unchanged while computing the same
value; the percentile values looked up from the built map are independent
of the order in which percentiles are requested; and the stored
`AllLatencies` list of a cell does not depend on which percentiles were
computed. -/
theorem percentile_computation_pure (l : List Nat) (p : Nat) :
    (calculatePercentileTracked l p).2 = l ∧
    (calculatePercentileTracked l p).1 = calculatePercentile l p ∧
    (∀ ps qs : List Nat, ps.Perm qs → ∀ q : Nat,
      (ps.map fun x => (x, calculatePercentile l x)).lookup q
        = (qs.map fun x => (x, calculatePercentile l x)).lookup q) ∧
    (∀ (modelName : String) (concurrency totalDuration : Nat)
        (outcomes : List Outcome) (ps qs : List Nat),
      (runTestWithConcurrency (initTestResult modelName concurrency) outcomes
          totalDuration ps).AllLatencies
        = (runTestWithConcurrency (initTestResult modelName concurrency)
            outcomes totalDuration qs).AllLatencies) := by
  refine ⟨rfl, rfl, ?_, ?_⟩
  · intro ps qs hperm q
    rw [lookup_map_key, lookup_map_key]
    simp [hperm.mem_iff]
  · intro modelName concurrency totalDuration outcomes ps qs
    simp [runTestWithConcurrency, aggregateResult]

/-- Witness for C10 at `l = [30, 10, 20]`, `p = 50`, with the permuted
request orders `[50, 90]` and `[90, 50]`. -/
theorem percentile_computation_pure_witness :
    ([50, 90].map fun x => (x, calculatePercentile [30, 10, 20] x)).lookup 90
      = ([90, 50].map fun x =>
          (x, calculatePercentile [30, 10, 20] x)).lookup 90 :=
  (percentile_computation_pure [30, 10, 20] 50).2.2.1 [50, 90] [90, 50]
    (by decide) 90

/- ### Zero-success cells and per-iteration recording -/

/-- Counterexample to C3 as stated: a cell in which the single invocation
fails (so `SuccessRequests = 0`) still stores a percentile entry, because
the worker appended the failed request's latency to the sample list
(engine.go:184-186) and the percentile block only checks that the sample
list is non-empty (engine.go:252). -/
theorem zero_success_cell_cex :
    (runTestWithConcurrency (initTestResult "m" 1)
        [⟨5, Except.error "x"⟩] 1000000000 [50]).SuccessRequests = 0 ∧
    (runTestWithConcurrency (initTestResult "m" 1)
        [⟨5, Except.error "x"⟩] 1000000000 [50]).LatencyPercentiles ≠ none := by
  decide

/-- C3 (amended): in a cell where every invocation fails and at least one
request completed, `RequestsPerSec`, `TokensPerSec` and `AvgLatency` stay
`0` and no division by zero occurs — but `LatencyPercentiles` is still
populated, from the latencies of the failed requests, whenever percentiles
are configured (it is absent only when no percentile is configured). -/
theorem zero_success_cell (modelName : String) (concurrency : Nat)
    (outcomes : List Outcome) (totalDuration : Nat) (cfgPercentiles : List Nat)
    (r : TestResult)
    (hr : r = runTestWithConcurrency (initTestResult modelName concurrency)
      outcomes totalDuration cfgPercentiles)
    (hfail : ∀ o ∈ outcomes, o.isFailure = true) (hne : outcomes ≠ []) :
    r.SuccessRequests = 0 ∧ r.FailedRequests = r.TotalRequests ∧
    r.RequestsPerSec = 0 ∧ r.TokensPerSec = 0 ∧ r.AvgLatency = 0 ∧
    (cfgPercentiles ≠ [] → r.LatencyPercentiles
      = some (cfgPercentiles.map fun p =>
          (p, calculatePercentile (outcomes.map Outcome.latency) p))) ∧
    (cfgPercentiles = [] → r.LatencyPercentiles = none) := by
  subst hr
  have hsc : (drainJobs outcomes).successCount = 0 := by
    simpa [drainJobs, initCellState]
      using foldl_workerIter_success_all_fail outcomes hfail initCellState
  have hsum := foldl_workerIter_success_add_failed outcomes initCellState
  have hlat := drainJobs_latencies outcomes
  have hpos : 0 < (drainJobs outcomes).latencies.length := by
    rw [hlat]; simpa using List.length_pos.mpr hne
  refine ⟨?_, ?_, ?_, ?_, ?_, ?_, ?_⟩
  · simp [runTestWithConcurrency, aggregateResult, initTestResult, hsc]
  · simp only [drainJobs, initCellState] at hsc hsum
    simp [runTestWithConcurrency, aggregateResult, initTestResult, drainJobs,
      initCellState]
    omega
  · simp [runTestWithConcurrency, aggregateResult, initTestResult, hsc]
  · simp [runTestWithConcurrency, aggregateResult, initTestResult, hsc]
  · simp [runTestWithConcurrency, aggregateResult, initTestResult, hsc]
  · intro hps
    simp only [runTestWithConcurrency, aggregateResult]
    rw [if_pos ⟨hpos, List.length_pos.mpr hps⟩, hlat]
  · intro hps
    subst hps
    simp [runTestWithConcurrency, aggregateResult, initTestResult]

/-- Witness for C3 (amended) at one failed outcome with percentile list
`[50]`. -/
theorem zero_success_cell_witness :
    (runTestWithConcurrency (initTestResult "m" 1)
        [⟨5, Except.error "x"⟩] 1000000000 [50]).RequestsPerSec = 0 :=
  (zero_success_cell "m" 1 [⟨5, Except.error "x"⟩] 1000000000 [50] _ rfl
    (by decide) (List.cons_ne_nil _ _)).2.2.1

/-- Counterexample to C4 as stated: a failed invocation's latency does
enter the sample set — the worker appends the measured latency before
checking the error (engine.go:184-186), so after processing a failed
outcome the sample list has grown. -/
theorem failed_latency_recorded_cex :
    (workerIter initCellState ⟨5, Except.error "boom"⟩).latencies
      ≠ initCellState.latencies := by
  decide

/-- C4 (amended): each worker iteration records exactly the error on
failure (`failedCount` incremented, the error string appended) and records
`totalLatency` and the token counters only on success — but the latency
sample is appended to the sample set on every completed invocation,
success or failure. -/
theorem workerIter_records (s : CellState) (o : Outcome) :
    (∀ e, o.result = Except.error e →
      workerIter s o = { s with
        latencies := s.latencies ++ [o.latency],
        failedCount := s.failedCount + 1,
        errors := s.errors ++ [e] }) ∧
    (∀ resp, o.result = Except.ok resp →
      workerIter s o = { s with
        latencies := s.latencies ++ [o.latency],
        successCount := s.successCount + 1,
        totalLatency := s.totalLatency + o.latency,
        inputTokens := s.inputTokens + resp.InputTokens,
        outputTokens := s.outputTokens + resp.OutputTokens }) := by
  rcases o with ⟨lat, res⟩
  cases res with
  | error e0 =>
      refine ⟨fun e he => ?_, fun resp hresp => ?_⟩
      · injection he with h
        subst h
        rfl
      · simp at hresp
  | ok resp0 =>
      refine ⟨fun e he => ?_, fun resp hresp => ?_⟩
      · simp at he
      · injection hresp with h
        subst h
        rfl

/-- Witness for C4 (amended): one failed and one successful iteration. -/
theorem workerIter_records_witness :
    workerIter initCellState ⟨5, Except.error "boom"⟩
      = { initCellState with
          latencies := initCellState.latencies ++ [5],
          failedCount := initCellState.failedCount + 1,
          errors := initCellState.errors ++ ["boom"] } ∧
    workerIter initCellState ⟨7, Except.ok ⟨"hi", 3, 4⟩⟩
      = { initCellState with
          latencies := initCellState.latencies ++ [7],
          successCount := initCellState.successCount + 1,
          totalLatency := initCellState.totalLatency + 7,
          inputTokens := initCellState.inputTokens + 3,
          outputTokens := initCellState.outputTokens + 4 } :=
  ⟨(workerIter_records initCellState ⟨5, Except.error "boom"⟩).1 "boom" rfl,
    (workerIter_records initCellState ⟨7, Except.ok ⟨"hi", 3, 4⟩⟩).2
      ⟨"hi", 3, 4⟩ rfl⟩

/-- C6: when a cell has successes, `RequestsPerSec` is the success count
divided by the cell's elapsed seconds and `TokensPerSec` is the total
token count divided by the same elapsed seconds; when the cell has no
success, `RequestsPerSec`, `AvgLatency` and all average-token fields stay
`0`. -/
theorem derived_rates (modelName : String) (concurrency : Nat)
    (outcomes : List Outcome) (totalDuration : Nat) (cfgPercentiles : List Nat)
    (r : TestResult)
    (hr : r = runTestWithConcurrency (initTestResult modelName concurrency)
      outcomes totalDuration cfgPercentiles) :
    (0 < r.SuccessRequests →
      r.RequestsPerSec = (r.SuccessRequests : ℚ) / durationSeconds totalDuration ∧
      r.TokensPerSec = (r.TotalTokens : ℚ) / durationSeconds totalDuration) ∧
    (r.SuccessRequests = 0 →
      r.RequestsPerSec = 0 ∧ r.AvgLatency = 0 ∧ r.AvgInputTokens = 0 ∧
      r.AvgOutputTokens = 0 ∧ r.AvgTotalTokens = 0) := by
  subst hr
  rcases Nat.eq_zero_or_pos (drainJobs outcomes).successCount with h0 | hpos
  · constructor
    · intro hpos2
      simp [runTestWithConcurrency, aggregateResult, initTestResult, h0]
        at hpos2
    · intro _
      simp [runTestWithConcurrency, aggregateResult, initTestResult, h0]
  · constructor
    · intro _
      simp [runTestWithConcurrency, aggregateResult, initTestResult, hpos]
    · intro h0'
      simp [runTestWithConcurrency, aggregateResult, initTestResult] at h0'
      omega

/-- Witness for C6: a one-success cell and a one-failure cell. -/
theorem derived_rates_witness :
    ((runTestWithConcurrency (initTestResult "m" 1)
        [⟨5, Except.ok ⟨"hi", 3, 4⟩⟩] 2000000000 []).RequestsPerSec
      = (((runTestWithConcurrency (initTestResult "m" 1)
          [⟨5, Except.ok ⟨"hi", 3, 4⟩⟩] 2000000000 []).SuccessRequests : ℚ))
        / durationSeconds 2000000000 ∧
    (runTestWithConcurrency (initTestResult "m" 1)
        [⟨5, Except.ok ⟨"hi", 3, 4⟩⟩] 2000000000 []).TokensPerSec
      = (((runTestWithConcurrency (initTestResult "m" 1)
          [⟨5, Except.ok ⟨"hi", 3, 4⟩⟩] 2000000000 []).TotalTokens : ℚ))
        / durationSeconds 2000000000) ∧
    ((runTestWithConcurrency (initTestResult "m" 1)
        [⟨5, Except.error "x"⟩] 1000000000 []).RequestsPerSec = 0 ∧
    (runTestWithConcurrency (initTestResult "m" 1)
        [⟨5, Except.error "x"⟩] 1000000000 []).AvgLatency = 0 ∧
    (runTestWithConcurrency (initTestResult "m" 1)
        [⟨5, Except.error "x"⟩] 1000000000 []).AvgInputTokens = 0 ∧
    (runTestWithConcurrency (initTestResult "m" 1)
        [⟨5, Except.error "x"⟩] 1000000000 []).AvgOutputTokens = 0 ∧
    (runTestWithConcurrency (initTestResult "m" 1)
        [⟨5, Except.error "x"⟩] 1000000000 []).AvgTotalTokens = 0) :=
  ⟨(derived_rates "m" 1 [⟨5, Except.ok ⟨"hi", 3, 4⟩⟩] 2000000000 [] _ rfl).1
      (by decide),
    (derived_rates "m" 1 [⟨5, Except.error "x"⟩] 1000000000 [] _ rfl).2
      (by decide)⟩

/- ### The Matrix Driver (`Run`, engine.go:67-115) -/

/-- The slice of the `model.LLMModel` interface (model/model.go:30-41) the
Matrix Driver reads: `GetName()` and `GetConcurrencyLevels()`. -/
structure LLMModel where
  name : String
  concurrencyLevels : List Nat
  deriving Repr, DecidableEq

/-- The fields of `config.TestConfig` the driver reads: the single global
`Concurrency`, the global `ConcurrencyLevels` list, and the requested
`LatencyPercentiles`. -/
structure TestConfig where
  Concurrency : Nat
  ConcurrencyLevels : List Nat
  LatencyPercentiles : List Nat
  deriving Repr, DecidableEq

/-- The concurrency-level resolution of `Run` (engine.go:76-91): the
model's own non-empty list wins, else the non-empty global list, else the
single global concurrency value. -/
def resolveConcurrencyLevels (mdl : LLMModel) (cfg : TestConfig) : List Nat :=
  if 0 < mdl.concurrencyLevels.length then mdl.concurrencyLevels
  else if 0 < cfg.ConcurrencyLevels.length then cfg.ConcurrencyLevels
  else [cfg.Concurrency]

/-- The composite result key
`fmt.Sprintf("%s-%d", modelName, concurrency)` (engine.go:96). -/
def resultKey (modelName : String) (concurrency : Nat) : String :=
  modelName ++ "-" ++ toString concurrency

/-- The sequence of cells `Run` executes: one per model in configured
order, one per resolved concurrency level in listed order
(engine.go:71-108). -/
def cellPlan (models : List LLMModel) (cfg : TestConfig) : List (String × Nat) :=
  models.flatMap fun mdl =>
    (resolveConcurrencyLevels mdl cfg).map fun c => (mdl.name, c)

/-- The inner loop of `Run` over one model's resolved levels
(engine.go:94-108): each level gets a fresh result stored under its key;
on a cell error `Run` returns `nil` and the wrapping error
`fmt.Errorf("测试模型 %s 失败: %w", modelName, err)` (engine.go:104-107),
discarding the map built so far.  `runCell` abstracts the per-cell run
(`runTestWithConcurrency` populating the fresh result, or the error it
returns). -/
def runModelCells (runCell : String → Nat → Except String TestResult)
    (modelName : String) :
    List Nat → List (String × TestResult) →
      Except String (List (String × TestResult))
  | [], acc => .ok acc
  | c :: rest, acc =>
    match runCell modelName c with
    | .error e => .error ("测试模型 " ++ modelName ++ " 失败: " ++ e)
    | .ok result =>
        runModelCells runCell modelName rest
          (acc ++ [(resultKey modelName c, result)])

/-- The outer loop of `Run` over the configured models (engine.go:71-109). -/
def runAllModels (runCell : String → Nat → Except String TestResult)
    (cfg : TestConfig) :
    List LLMModel → List (String × TestResult) →
      Except String (List (String × TestResult))
  | [], acc => .ok acc
  | mdl :: rest, acc =>
    match runModelCells runCell mdl.name (resolveConcurrencyLevels mdl cfg) acc with
    | .error e => .error e
    | .ok acc2 => runAllModels runCell cfg rest acc2

/-- `Run` (engine.go:67-115): iterate the models, resolve each one's
concurrency levels, run one cell per level, and either return the complete
keyed result map or abort on the first failing cell. -/
def Run (models : List LLMModel) (cfg : TestConfig)
    (runCell : String → Nat → Except String TestResult) :
    Except String (List (String × TestResult)) :=
  runAllModels runCell cfg models []

lemma runModelCells_ok_iff (runCell : String → Nat → Except String TestResult)
    (modelName : String) (levels : List Nat) :
    ∀ acc, (∃ acc2, runModelCells runCell modelName levels acc = .ok acc2)
      ↔ ∀ c ∈ levels, ∃ res, runCell modelName c = .ok res := by
  induction levels with
  | nil => intro acc; simp [runModelCells]
  | cons c rest ih =>
      intro acc
      constructor
      · rintro ⟨acc2, h2⟩ c' hc'
        rcases List.mem_cons.mp hc' with rfl | hc'
        · cases hcell : runCell modelName c' with
          | error e => rw [runModelCells, hcell] at h2; simp at h2
          | ok res => exact ⟨res, rfl⟩
        · cases hcell : runCell modelName c with
          | error e => rw [runModelCells, hcell] at h2; simp at h2
          | ok res =>
              rw [runModelCells, hcell] at h2
              exact ((ih _).mp ⟨acc2, h2⟩) c' hc'
      · intro hall
        obtain ⟨res, hres⟩ := hall c (List.mem_cons_self _ _)
        rw [runModelCells, hres]
        exact (ih _).mpr fun c' hc' => hall c' (List.mem_cons_of_mem _ hc')

lemma runModelCells_error (runCell : String → Nat → Except String TestResult)
    (modelName : String) (levels : List Nat) :
    ∀ acc msg, runModelCells runCell modelName levels acc = .error msg →
      ∃ c ∈ levels, ∃ e, runCell modelName c = .error e ∧
        msg = "测试模型 " ++ modelName ++ " 失败: " ++ e := by
  induction levels with
  | nil => intro acc msg h; simp [runModelCells] at h
  | cons c rest ih =>
      intro acc msg h
      cases hcell : runCell modelName c with
      | error e =>
          rw [runModelCells, hcell] at h
          exact ⟨c, List.mem_cons_self _ _, e, hcell,
            (Except.error.injEq _ _ ▸ h).symm⟩
      | ok res =>
          rw [runModelCells, hcell] at h
          obtain ⟨c', hc', e, he, hmsg⟩ := ih _ _ h
          exact ⟨c', List.mem_cons_of_mem _ hc', e, he, hmsg⟩

lemma runModelCells_ok_keys (runCell : String → Nat → Except String TestResult)
    (modelName : String) (levels : List Nat) :
    ∀ acc acc2, runModelCells runCell modelName levels acc = .ok acc2 →
      acc2.map Prod.fst = acc.map Prod.fst ++ levels.map (resultKey modelName) := by
  induction levels with
  | nil => intro acc acc2 h; simp [runModelCells] at h; simp [← h]
  | cons c rest ih =>
      intro acc acc2 h
      cases hcell : runCell modelName c with
      | error e => rw [runModelCells, hcell] at h; simp at h
      | ok res =>
          rw [runModelCells, hcell] at h
          rw [ih _ _ h]
          simp

lemma runAllModels_ok_iff (runCell : String → Nat → Except String TestResult)
    (cfg : TestConfig) (models : List LLMModel) :
    ∀ acc, (∃ rs, runAllModels runCell cfg models acc = .ok rs)
      ↔ ∀ mdl ∈ models, ∀ c ∈ resolveConcurrencyLevels mdl cfg,
          ∃ res, runCell mdl.name c = .ok res := by
  induction models with
  | nil => intro acc; simp [runAllModels]
  | cons mdl rest ih =>
      intro acc
      constructor
      · rintro ⟨rs, hrs⟩ mdl' hmdl' c hc
        cases hcells : runModelCells runCell mdl.name
            (resolveConcurrencyLevels mdl cfg) acc with
        | error e => rw [runAllModels, hcells] at hrs; simp at hrs
        | ok acc2 =>
            rcases List.mem_cons.mp hmdl' with rfl | hmdl'
            · exact ((runModelCells_ok_iff runCell mdl'.name _ acc).mp
                ⟨acc2, hcells⟩) c hc
            · rw [runAllModels, hcells] at hrs
              exact ((ih _).mp ⟨rs, hrs⟩) mdl' hmdl' c hc
      · intro hall
        obtain ⟨acc2, hcells⟩ :=
          (runModelCells_ok_iff runCell mdl.name _ acc).mpr
            (hall mdl (List.mem_cons_self _ _))
        rw [runAllModels, hcells]
        exact (ih _).mpr fun mdl' hmdl' => hall mdl' (List.mem_cons_of_mem _ hmdl')

lemma runAllModels_error (runCell : String → Nat → Except String TestResult)
    (cfg : TestConfig) (models : List LLMModel) :
    ∀ acc msg, runAllModels runCell cfg models acc = .error msg →
      ∃ mdl ∈ models, ∃ c ∈ resolveConcurrencyLevels mdl cfg, ∃ e,
        runCell mdl.name c = .error e ∧
        msg = "测试模型 " ++ mdl.name ++ " 失败: " ++ e := by
  induction models with
  | nil => intro acc msg h; simp [runAllModels] at h
  | cons mdl rest ih =>
      intro acc msg h
      cases hcells : runModelCells runCell mdl.name
          (resolveConcurrencyLevels mdl cfg) acc with
      | error e =>
          rw [runAllModels, hcells] at h
          obtain ⟨c, hc, e', he', hmsg⟩ :=
            runModelCells_error runCell mdl.name _ _ _ hcells
          cases h
          exact ⟨mdl, List.mem_cons_self _ _, c, hc, e', he', hmsg⟩
      | ok acc2 =>
          rw [runAllModels, hcells] at h
          obtain ⟨mdl', hmdl', c, hc, e, he, hmsg⟩ := ih _ _ h
          exact ⟨mdl', List.mem_cons_of_mem _ hmdl', c, hc, e, he, hmsg⟩

lemma runAllModels_ok_keys (runCell : String → Nat → Except String TestResult)
    (cfg : TestConfig) (models : List LLMModel) :
    ∀ acc rs, runAllModels runCell cfg models acc = .ok rs →
      rs.map Prod.fst = acc.map Prod.fst
        ++ (cellPlan models cfg).map fun pc => resultKey pc.1 pc.2 := by
  induction models with
  | nil => intro acc rs h; simp [runAllModels] at h; simp [← h, cellPlan]
  | cons mdl rest ih =>
      intro acc rs h
      cases hcells : runModelCells runCell mdl.name
          (resolveConcurrencyLevels mdl cfg) acc with
      | error e => rw [runAllModels, hcells] at h; simp at h
      | ok acc2 =>
          rw [runAllModels, hcells] at h
          rw [ih _ _ h, runModelCells_ok_keys runCell mdl.name _ _ _ hcells]
          simp [cellPlan, Function.comp]

/-- C8: `Run` is all-or-nothing — it returns a result map exactly when
every cell of the matrix completes, and when some cell fails it returns
the error of the first failing cell wrapped with that cell's model name,
discarding every previously completed cell result. -/
theorem Run_all_or_nothing (models : List LLMModel) (cfg : TestConfig)
    (runCell : String → Nat → Except String TestResult) :
    ((∃ rs, Run models cfg runCell = .ok rs)
      ↔ ∀ mdl ∈ models, ∀ c ∈ resolveConcurrencyLevels mdl cfg,
          ∃ res, runCell mdl.name c = .ok res) ∧
    (∀ msg, Run models cfg runCell = .error msg →
      ∃ mdl ∈ models, ∃ c ∈ resolveConcurrencyLevels mdl cfg, ∃ e,
        runCell mdl.name c = .error e ∧
        msg = "测试模型 " ++ mdl.name ++ " 失败: " ++ e) :=
  ⟨runAllModels_ok_iff runCell cfg models [],
    fun msg h => runAllModels_error runCell cfg models [] msg h⟩

/-- Witness for C8: one model whose only cell fails; `Run` aborts with the
wrapped error naming the model. -/
theorem Run_all_or_nothing_witness :
    ∃ mdl ∈ [(⟨"m", [1]⟩ : LLMModel)],
      ∃ c ∈ resolveConcurrencyLevels mdl ⟨1, [], []⟩, ∃ e,
        (fun (_ : String) (_ : Nat) =>
          (Except.error "boom" : Except String TestResult)) mdl.name c
          = Except.error e ∧
        "测试模型 m 失败: boom" = "测试模型 " ++ mdl.name ++ " 失败: " ++ e :=
  (Run_all_or_nothing [⟨"m", [1]⟩] ⟨1, [], []⟩
    (fun _ _ => Except.error "boom")).2 "测试模型 m 失败: boom" rfl

/-- C5: the driver resolves each model's concurrency-level list by the
priority model-override > global list > single global value, and on a
completed run executes exactly one cell per resolved level, in listed
order; a variant with override `[5,10]` under global list `[10,20,50]`
yields exactly the cells `(variant,5)` and `(variant,10)`. -/
theorem matrix_resolution (mdl : LLMModel) (cfg : TestConfig) :
    (mdl.concurrencyLevels ≠ [] →
      resolveConcurrencyLevels mdl cfg = mdl.concurrencyLevels) ∧
    (mdl.concurrencyLevels = [] → cfg.ConcurrencyLevels ≠ [] →
      resolveConcurrencyLevels mdl cfg = cfg.ConcurrencyLevels) ∧
    (mdl.concurrencyLevels = [] → cfg.ConcurrencyLevels = [] →
      resolveConcurrencyLevels mdl cfg = [cfg.Concurrency]) ∧
    (∀ (models : List LLMModel)
        (runCell : String → Nat → Except String TestResult)
        (rs : List (String × TestResult)),
      Run models cfg runCell = .ok rs →
      rs.map Prod.fst = (cellPlan models cfg).map fun pc => resultKey pc.1 pc.2) ∧
    cellPlan [⟨"variant", [5, 10]⟩] ⟨10, [10, 20, 50], []⟩
      = [("variant", 5), ("variant", 10)] := by
  refine ⟨?_, ?_, ?_, ?_, rfl⟩
  · intro hne
    simp [resolveConcurrencyLevels, List.length_pos.mpr hne]
  · intro hml hne
    simp [resolveConcurrencyLevels, hml, List.length_pos.mpr hne]
  · intro hml hgl
    simp [resolveConcurrencyLevels, hml, hgl]
  · intro models runCell rs h
    simpa using runAllModels_ok_keys runCell cfg models [] rs h

/-- Witness for C5 at the override example of the spec. -/
theorem matrix_resolution_witness :
    resolveConcurrencyLevels ⟨"variant", [5, 10]⟩ ⟨10, [10, 20, 50], []⟩
      = [5, 10] :=
  (matrix_resolution ⟨"variant", [5, 10]⟩ ⟨10, [10, 20, 50], []⟩).1
    (by decide)

/- ### The worker pool and the semaphore bound (engine.go:156-203) -/

/-- The phase a worker goroutine is in within its `for range jobs` loop:
`idle` — blocked on the dispatch channel receive (engine.go:173);
`hasJob` — holding a token, blocked on the semaphore send (engine.go:174);
`inFlight` — holding a semaphore slot, i.e. anywhere between the
`sem <- struct{}{}` send (engine.go:174) and the `<-sem` receive
(engine.go:200); the `GenerateResponse` invocation happens strictly inside
this phase. -/
inductive WorkerPhase where
  | idle
  | hasJob
  | inFlight
  deriving Repr, DecidableEq

/-- `true` exactly on the `inFlight` phase. -/
def isInFlight : WorkerPhase → Bool
  | .inFlight => true
  | _ => false

/-- Number of workers currently holding a semaphore slot — an upper bound
on the number of simultaneous `GenerateResponse` invocations. -/
def countInFlight (phases : List WorkerPhase) : Nat :=
  phases.countP isInFlight

/-- State of one cell's worker pool: the phase of each worker goroutine
and the number of tokens sitting in the dispatch channel. -/
structure PoolState where
  phases : List WorkerPhase
  jobs : Nat
  deriving Repr, DecidableEq

/-- Interleaving semantics of the pool of `runTestWithConcurrency` at
concurrency level `C` (engine.go:156-203).  `sem` is a channel of capacity
`C` (engine.go:156) holding one token per worker between its send at
engine.go:174 and its receive at engine.go:200, so the send is enabled
only while fewer than `C` workers are in flight; the channel is the sole
synchronisation on entry to the invocation. -/
inductive PoolStep (C : Nat) : PoolState → PoolState → Prop where
  | takeJob (pre post : List WorkerPhase) (jobs : Nat) :
      PoolStep C ⟨pre ++ .idle :: post, jobs + 1⟩
        ⟨pre ++ .hasJob :: post, jobs⟩
  | acquireSem (pre post : List WorkerPhase) (jobs : Nat)
      (hsem : countInFlight (pre ++ .hasJob :: post) < C) :
      PoolStep C ⟨pre ++ .hasJob :: post, jobs⟩
        ⟨pre ++ .inFlight :: post, jobs⟩
  | releaseSem (pre post : List WorkerPhase) (jobs : Nat) :
      PoolStep C ⟨pre ++ .inFlight :: post, jobs⟩
        ⟨pre ++ .idle :: post, jobs⟩

lemma poolStep_inFlight_le {C : Nat} {s t : PoolState} (h : PoolStep C s t)
    (hs : countInFlight s.phases ≤ C) : countInFlight t.phases ≤ C := by
  cases h with
  | takeJob pre post jobs =>
      simp [countInFlight, List.countP_append, List.countP_cons,
        isInFlight] at hs ⊢
      omega
  | acquireSem pre post jobs hsem =>
      simp [countInFlight, List.countP_append, List.countP_cons,
        isInFlight] at hsem ⊢
      omega
  | releaseSem pre post jobs =>
      simp [countInFlight, List.countP_append, List.countP_cons,
        isInFlight] at hs ⊢
      omega

/-- C9: starting from the pool's initial state — every worker idle at the
dispatch channel — any state reachable by the pool's steps has at most `C`
workers holding a semaphore slot, so at most `C` `GenerateResponse`
invocations are in flight at any instant. -/
theorem inFlight_bounded (C : Nat) (s0 s : PoolState)
    (hinit : ∀ ph ∈ s0.phases, ph = WorkerPhase.idle)
    (hreach : Relation.ReflTransGen (PoolStep C) s0 s) :
    countInFlight s.phases ≤ C := by
  have h0 : countInFlight s0.phases = 0 := by
    apply List.countP_eq_zero.mpr
    intro ph hph
    rw [hinit ph hph]
    simp [isInFlight]
  induction hreach with
  | refl => omega
  | tail _ hstep ih => exact poolStep_inFlight_le hstep ih

/-- Witness for C9: a one-worker pool (`C = 1`) that takes a job and
acquires the semaphore; at most one worker is ever in flight. -/
theorem inFlight_bounded_witness :
    countInFlight [WorkerPhase.inFlight] ≤ 1 :=
  inFlight_bounded 1 ⟨[WorkerPhase.idle], 1⟩ ⟨[WorkerPhase.inFlight], 0⟩
    (by decide)
    (Relation.ReflTransGen.head (PoolStep.takeJob [] [] 0)
      (Relation.ReflTransGen.single (PoolStep.acquireSem [] [] 0 (by decide))))

end LLMTest
